import Mathlib

/-!
Verification of the Paddle API client (`src/api/index.ts`).

The development shallowly embeds the query-string serializer `prepareQuery`
and the request dispatcher `paddleFetch` as Lean functions over a JavaScript
value model, and proves the specified properties about them.
-/

set_option maxHeartbeats 1000000

namespace PaddleClient

/-- Model of the JavaScript values that can appear in a query object:
`undefined`, `null`, strings, numbers (modelled as integers; the claims use
only integral numbers), booleans, arrays and plain objects (entry lists in
enumeration order). -/
inductive QVal where
  | undef : QVal
  | null : QVal
  | str : String → QVal
  | num : Int → QVal
  | bool : Bool → QVal
  | arr : List QVal → QVal
  | obj : List (String × QVal) → QVal
deriving Repr

/-- `v.isUndef` embeds the JavaScript test `v === undefined`. -/
def QVal.isUndef : QVal → Bool
  | .undef => true
  | _ => false

/-- JavaScript truthiness of a value (`value &&`, `filter(([_, val]) => val)`):
`undefined`, `null`, the empty string, the number `0` and `false` are falsy;
every other value (including every array and object) is truthy. -/
def jsTruthy : QVal → Bool
  | .undef => false
  | .null => false
  | .str s => !s.data.isEmpty
  | .num n => n != 0
  | .bool b => b
  | .arr _ => true
  | .obj _ => true

/-- JavaScript stringification of a number (integral case): decimal digits,
with a leading `-` for negatives. -/
def jsNumToString (n : Int) : String := toString n

/-- Join a list of strings with the given separator (`Array.prototype.join`,
`URLSearchParams` serialization). -/
def joinSep (sep : String) : List String → String
  | [] => ""
  | [s] => s
  | s :: rest => s ++ sep ++ joinSep sep rest

mutual

/-- Stringification of an array element as performed by
`Array.prototype.join`: `undefined` and `null` become the empty string, other
values are converted with the usual `String(·)` conversion. -/
def jsJoinElem : QVal → String
  | .undef => ""
  | .null => ""
  | .str s => s
  | .num n => jsNumToString n
  | .bool b => if b then "true" else "false"
  | .arr xs => joinSep "," (jsJoinList xs)
  | .obj _ => "[object Object]"

/-- Element-wise `jsJoinElem` over a list (join of a nested array). -/
def jsJoinList : List QVal → List String
  | [] => []
  | x :: xs => jsJoinElem x :: jsJoinList xs

end

/-- The `value.toString()` method call on line 657 of `src/api/index.ts`:
it throws a `TypeError` (modelled as `none`) on `null` and `undefined`, and
produces the usual string conversion otherwise. -/
def jsToString : QVal → Option String
  | .undef => none
  | .null => none
  | .str s => some s
  | .num n => some (jsNumToString n)
  | .bool b => some (if b then "true" else "false")
  | .arr xs => some (joinSep "," (jsJoinList xs))
  | .obj _ => some "[object Object]"

/-- The four bracketed operator tokens recognised by
`operatorRegExp = /^(\[(?:GT|GTE|LT|LTE)\])(.*)/`. The closing bracket makes
the four alternatives mutually non-prefixing, so the regex match reduces to a
prefix test against these tokens. -/
def opTokens : List String := ["[GT]", "[GTE]", "[LT]", "[LTE]"]

/-- JavaScript regex `.` excludes the four line terminators. -/
def isLineTerminator (c : Char) : Bool :=
  c.toNat == 10 || c.toNat == 13 || c.toNat == 0x2028 || c.toNat == 0x2029

/-- Boolean prefix test on character lists. -/
def charsPrefix : List Char → List Char → Bool
  | [], _ => true
  | _ :: _, [] => false
  | a :: as, b :: bs => a == b && charsPrefix as bs

/-- `value.match(operatorRegExp)` reduced to its two capture groups: if the
string starts with one of the operator tokens, return the token and the
greedy `(.*)` capture (the maximal run of non-line-terminator characters
following the token); otherwise the match fails. -/
def opMatch (s : String) : Option (String × String) :=
  match opTokens.find? (fun t => charsPrefix t.data s.data) with
  | some t =>
      some (t, String.mk ((s.data.drop t.data.length).takeWhile (fun c => !isLineTerminator c)))
  | none => none

/-- The parameters appended to the `URLSearchParams` accumulator by one
iteration of the `forEach` body in `prepareQuery` (`src/api/index.ts`
lines 640–658), for entry `(key, value)`; `none` models the `TypeError`
thrown by `value.toString()` on `null`. -/
def entryParams (key : String) (value : QVal) : Option (List (String × String)) :=
  match value with
  | .undef => some []
  | .arr xs =>
      some [(key, joinSep "," (jsJoinList (xs.filter (fun item => !item.isUndef))))]
  | .obj fields =>
      if key = "include" then
        some [(key, joinSep "," ((fields.filter (fun p => jsTruthy p.2)).map Prod.fst))]
      else
        (jsToString (.obj fields)).map (fun s => [(key, s)])
  | .str s =>
      match opMatch s with
      | some (op, val) => if !val.data.isEmpty then some [(key ++ op, val)] else some [(key, s)]
      | none => some [(key, s)]
  | v => (jsToString v).map (fun s => [(key, s)])

/-- The full parameter list accumulated over the entries of a query object,
in entry order; `none` when some entry throws. -/
def prepareQueryParams : List (String × QVal) → Option (List (String × String))
  | [] => some []
  | (k, v) :: rest => do
      let ps ← entryParams k v
      let restPs ← prepareQueryParams rest
      pure (ps ++ restPs)

/-- Upper-case hexadecimal digit for `n < 16`. -/
def hexDigitChar (n : Nat) : Char :=
  if n < 10 then Char.ofNat (48 + n) else Char.ofNat (55 + n)

/-- The UTF-8 encoding of one character, as a list of byte values. -/
def utf8Bytes (c : Char) : List Nat :=
  let n := c.toNat
  if n < 0x80 then [n]
  else if n < 0x800 then [0xC0 + n / 0x40, 0x80 + n % 0x40]
  else if n < 0x10000 then
    [0xE0 + n / 0x1000, 0x80 + (n / 0x40) % 0x40, 0x80 + n % 0x40]
  else
    [0xF0 + n / 0x40000, 0x80 + (n / 0x1000) % 0x40, 0x80 + (n / 0x40) % 0x40, 0x80 + n % 0x40]

/-- Percent-encoding of one byte, as in `application/x-www-form-urlencoded`. -/
def percentByte (b : Nat) : String :=
  String.mk ['%', hexDigitChar (b / 16), hexDigitChar (b % 16)]

/-- Characters the `application/x-www-form-urlencoded` serializer leaves
unescaped: ASCII alphanumerics and `* - . _`. -/
def isFormUnreserved (c : Char) : Bool :=
  let n := c.toNat
  (48 ≤ n && n ≤ 57) || (65 ≤ n && n ≤ 90) || (97 ≤ n && n ≤ 122) ||
    n == 42 || n == 45 || n == 46 || n == 95

/-- `application/x-www-form-urlencoded` escaping of one string, as applied by
`URLSearchParams.toString()`: unreserved characters kept, space as `+`, every
other character percent-encoded byte-wise from its UTF-8 encoding. -/
def encodeComponent (s : String) : String :=
  s.data.foldl
    (fun acc c =>
      acc ++
        (if isFormUnreserved c then String.singleton c
         else if c.toNat == 32 then "+"
         else joinSep "" ((utf8Bytes c).map percentByte)))
    ""

/-- `URLSearchParams.toString()`: the appended `name=value` pairs, each side
form-urlencoded, joined with `&` in append order. -/
def searchParamsToString (params : List (String × String)) : String :=
  joinSep "&" (params.map (fun p => encodeComponent p.1 ++ "=" ++ encodeComponent p.2))

/-- `prepareQuery` (`src/api/index.ts` lines 636–662): serialize a query
object (`none` embeds `undefined`) to a query-string fragment; the result is
`none` when an entry's `value.toString()` throws. -/
def prepareQuery (query : Option (List (String × QVal))) : Option String :=
  match query with
  | none => some ""
  | some entries => do
      let ps ← prepareQueryParams entries
      let qStr := searchParamsToString ps
      pure (if qStr.data.isEmpty then "" else "?" ++ qStr)

/-- The HTTP methods used by the client (`PaddleFetchProps.method`). -/
inductive Method where
  | GET : Method
  | POST : Method
  | PATCH : Method
  | DELETE : Method
deriving Repr, DecidableEq

/-- The Paddle API client handle produced by `client(key, sandbox)`: the API
key and the optional `sandbox` flag (`none` embeds an omitted argument). -/
structure Client where
  key : String
  sandbox : Option Bool
deriving Repr, DecidableEq

/-- Truthiness of the optional boolean `sandbox` flag, as tested by
`client.sandbox ? sandboxAPIURL : apiURL`: only a present `true` is truthy. -/
def sandboxTruthy : Option Bool → Bool
  | some b => b
  | none => false

/-- The production base URL (`apiURL` in `src/api/index.ts`). -/
def apiURL : String := "https://api.paddle.com/"

/-- The sandbox base URL (`sandboxAPIURL` in `src/api/index.ts`). -/
def sandboxAPIURL : String := "https://sandbox-api.paddle.com/"

/-- `PaddleFetchProps`: method, path, optional query object, optional body.
The body type `β` is abstract; its JSON encoding is an external collaborator
(`JSON.stringify`) passed as a function. -/
structure FetchProps (β : Type) where
  method : Method
  path : String
  query : Option (List (String × QVal))
  body : Option β

/-- The request descriptor handed to the injected `fetch` transport: URL,
method, header list (in insertion order) and optional string body. -/
structure Request where
  url : String
  method : Method
  headers : List (String × String)
  body : Option String
deriving Repr, DecidableEq

/-- The request-building part of `paddleFetch` (`src/api/index.ts` lines
45–57): `Authorization` header always, `Content-Type: application/json`
exactly when a body is present, URL from the sandbox flag, path, and the
serialized query (empty when the query is absent), body JSON-stringified
when present and `null` (`none`) otherwise. `none` models the exception
thrown when `prepareQuery` faults. -/
def buildRequest {β : Type} (stringify : β → String) (c : Client)
    (p : FetchProps β) : Option Request :=
  (match p.query with
   | none => some ""
   | some q => prepareQuery (some q)).map
    (fun queryStr =>
      { url := (if sandboxTruthy c.sandbox then sandboxAPIURL else apiURL) ++ p.path ++ queryStr,
        method := p.method,
        headers := [("Authorization", "Bearer " ++ c.key)] ++
          (if p.body.isSome then [("Content-Type", "application/json")] else []),
        body := p.body.map stringify })

/-- A transport-level HTTP response: status code and raw body text. -/
structure HttpResponse where
  status : Nat
  body : String
deriving Repr, DecidableEq

/-- `paddleFetch` (`src/api/index.ts` lines 41–60): build the request, issue
it once through the injected transport (`Except.error` embeds a transport
rejection such as a network failure), and return `response.json()` — the
parse of the raw body by the external JSON decoder `parseJson`, with no
status-code branching, no retry and no translation. The outer `Option` is
`none` when request building itself throws. -/
def paddleFetch {β J : Type} (stringify : β → String)
    (transport : Request → Except String HttpResponse)
    (parseJson : String → Except String J)
    (c : Client) (p : FetchProps β) : Option (Except String J) :=
  (buildRequest stringify c p).map (fun req =>
    match transport req with
    | .error e => .error e
    | .ok resp => parseJson resp.body)

/-- The documented domain of query-entry values (spec §3, used by claim C10):
string, number or boolean scalars, arrays of defined scalars, and — under the
reserved key `include` only — a non-null object. -/
def isDefinedScalar : QVal → Bool
  | .str _ => true
  | .num _ => true
  | .bool _ => true
  | _ => false

/-- Whether a value is in the documented domain for the given key
(spec §3 data model; claim C10's precondition). -/
def inDocumentedDomain (key : String) : QVal → Bool
  | .str _ => true
  | .num _ => true
  | .bool _ => true
  | .arr xs => xs.all isDefinedScalar
  | .obj _ => key == "include"
  | .null => false
  | .undef => false

/-! ### Supporting lemmas -/

lemma jsJoinList_map_str (ss : List String) : jsJoinList (ss.map QVal.str) = ss := by
  induction ss with
  | nil => rfl
  | cons s rest ih => simp [jsJoinList, jsJoinElem, ih]

lemma filter_isUndef_map_str (ss : List String) :
    (ss.map QVal.str).filter (fun item => !item.isUndef) = ss.map QVal.str := by
  induction ss with
  | nil => rfl
  | cons s rest ih => simp [List.filter_cons, QVal.isUndef, ih]

/-! ### Claims -/

/-- C1 fails on the code: for key `price` and value `"[GT]"` — a string that
matches the comparison-operator pattern with an empty remainder — the code
appends a single bare parameter `price` with value `"[GT]"`; it does not
append a `price[GT]` parameter with empty value as the claim requires, and a
bare `price` parameter does appear. -/
theorem C1_counterexample :
    prepareQueryParams [("price", QVal.str "[GT]")] = some [("price", "[GT]")] ∧
    prepareQueryParams [("price", QVal.str "[GT]")] ≠ some [("price[GT]", "")] ∧
    prepareQuery (some [("price", QVal.str "[GT]")]) = some "?price=%5BGT%5D" :=
  ⟨rfl, by decide, rfl⟩

/-- C1 (amended): for a query entry whose key is `k` and whose string value
matches the comparison-operator pattern, when the captured remainder is
nonempty `prepareQuery` appends exactly one parameter named `k` followed by
the bracketed operator token, with value the captured remainder, and no bare
`k` parameter; when the captured remainder is empty the entry falls through
and appends exactly one bare parameter `k` whose value is the whole original
string. -/
theorem C1_operator_expansion (k s op val : String)
    (h : opMatch s = some (op, val)) :
    entryParams k (QVal.str s) =
      (if val.data.isEmpty then some [(k, s)] else some [(k ++ op, val)]) := by
  simp only [entryParams, h]
  cases hv : val.data.isEmpty <;> simp [hv]

theorem C1_operator_expansion_witness :
    opMatch "[GTE]10" = some ("[GTE]", "10") ∧
    entryParams "price" (QVal.str "[GTE]10") =
      (if ("10" : String).data.isEmpty then some [("price", "[GTE]10")]
       else some [("price[GTE]", "10")]) :=
  ⟨rfl, C1_operator_expansion "price" "[GTE]10" "[GTE]" "10" rfl⟩

/-- C2: for an array-valued entry, even when an element matches the
comparison-operator pattern, the appended parameter keeps the bare key `k`
(no operator suffix) and the matching element is rendered literally by the
join (`jsJoinElem` is the identity on strings). -/
theorem C2_array_literal (k s : String) (xs : List QVal)
    (_hmem : QVal.str s ∈ xs) (_hop : (opMatch s).isSome) :
    entryParams k (QVal.arr xs) =
      some [(k, joinSep "," (jsJoinList (xs.filter (fun item => !item.isUndef))))] ∧
    jsJoinElem (QVal.str s) = s :=
  ⟨rfl, rfl⟩

theorem C2_array_literal_witness :
    entryParams "price" (QVal.arr [QVal.str "[GT]5"]) = some [("price", "[GT]5")] := by
  have h := C2_array_literal "price" "[GT]5" [QVal.str "[GT]5"] (by simp) (by decide)
  exact h.1.trans (by decide)

/-- C3: for the reserved key `include` with an object value, exactly one
`include` parameter is appended, whose value is the comma-join of precisely
those keys of the object whose value is truthy, in the object's own key
order; the spec's example `{a: true, b: false, c: true}` serializes to
`include=a%2Cc`. -/
theorem C3_include_selector (fields : List (String × QVal)) :
    entryParams "include" (QVal.obj fields) =
      some [("include", joinSep "," ((fields.filter (fun p => jsTruthy p.2)).map Prod.fst))] ∧
    (∀ k : String,
      k ∈ (fields.filter (fun p => jsTruthy p.2)).map Prod.fst ↔
        ∃ p ∈ fields, jsTruthy p.2 ∧ p.1 = k) ∧
    prepareQuery (some [("include",
        QVal.obj [("a", QVal.bool true), ("b", QVal.bool false), ("c", QVal.bool true)])]) =
      some "?include=a%2Cc" := by
  refine ⟨rfl, ?_, rfl⟩
  intro k
  simp [List.mem_map, List.mem_filter, and_assoc]

/-- C4: an array-valued entry always appends exactly one parameter under the
bare key: for an array of strings the value is the comma-join of the
elements in their original order; an `undefined` element anywhere in the
array is removed from the join; and the parameter is appended even for the
empty array, whose joined string is empty. -/
theorem C4_array_parameter (k : String) (ss : List String) (pre post : List QVal) :
    entryParams k (QVal.arr (ss.map QVal.str)) = some [(k, joinSep "," ss)] ∧
    entryParams k (QVal.arr (pre ++ QVal.undef :: post)) =
      entryParams k (QVal.arr (pre ++ post)) ∧
    entryParams k (QVal.arr []) = some [(k, "")] ∧
    prepareQuery (some [("status", QVal.arr [])]) = some "?status=" := by
  refine ⟨?_, ?_, rfl, rfl⟩
  · simp [entryParams, filter_isUndef_map_str, jsJoinList_map_str]
  · simp [entryParams, List.filter_append, List.filter_cons, QVal.isUndef]

lemma prepareQueryParams_append (es1 es2 : List (String × QVal)) :
    prepareQueryParams (es1 ++ es2) =
      (prepareQueryParams es1).bind
        (fun ps1 => (prepareQueryParams es2).map (fun ps2 => ps1 ++ ps2)) := by
  induction es1 with
  | nil => simp [prepareQueryParams]
  | cons e rest ih =>
      obtain ⟨k, v⟩ := e
      cases hp : entryParams k v with
      | none => simp [prepareQueryParams, hp]
      | some ps =>
          cases hr : prepareQueryParams rest with
          | none => simp [prepareQueryParams, hp, ih, hr]
          | some rs =>
              cases hq : prepareQueryParams es2 with
              | none => simp [prepareQueryParams, hp, ih, hr, hq]
              | some qs => simp [prepareQueryParams, hp, ih, hr, hq, List.append_assoc]

/-- C5: serialization is a pure deterministic function of the entry list, and
parameter order follows entry order: the parameter list of a concatenation of
two entry lists is the parameter list of the first followed by that of the
second, and `URLSearchParams.toString` renders the pairs in append order. -/
theorem C5_order_preserved (es1 es2 : List (String × QVal)) (ps : List (String × String)) :
    prepareQueryParams (es1 ++ es2) =
      (prepareQueryParams es1).bind
        (fun ps1 => (prepareQueryParams es2).map (fun ps2 => ps1 ++ ps2)) ∧
    searchParamsToString ps =
      joinSep "&" (ps.map (fun p => encodeComponent p.1 ++ "=" ++ encodeComponent p.2)) :=
  ⟨prepareQueryParams_append es1 es2, rfl⟩

lemma prepareQueryParams_cons_undef (k : String) (rest : List (String × QVal)) :
    prepareQueryParams ((k, QVal.undef) :: rest) = prepareQueryParams rest := by
  simp [prepareQueryParams, entryParams]

lemma prepareQueryParams_filter_undef (es : List (String × QVal)) :
    prepareQueryParams es = prepareQueryParams (es.filter (fun p => !p.2.isUndef)) := by
  induction es with
  | nil => rfl
  | cons e rest ih =>
      obtain ⟨k, v⟩ := e
      cases hu : v.isUndef with
      | true =>
          have hv : v = QVal.undef := by cases v <;> simp [QVal.isUndef] at hu ⊢
          subst hv
          rw [List.filter_cons]
          simpa [QVal.isUndef, prepareQueryParams_cons_undef] using ih
      | false =>
          rw [List.filter_cons]
          simp only [hu, Bool.not_false, if_pos]
          cases hp : entryParams k v <;>
            simp [prepareQueryParams, hp, ih]

/-- C6: `undefined`-valued entries contribute nothing to the serialization
(dropping them all leaves the parameter list unchanged), an absent query
serializes to the empty string, and so does a query whose entries are all
`undefined`-valued. -/
theorem C6_undefined_skipped :
    (∀ es : List (String × QVal),
        prepareQueryParams es = prepareQueryParams (es.filter (fun p => !p.2.isUndef))) ∧
    prepareQuery none = some "" ∧
    (∀ es : List (String × QVal), (∀ p ∈ es, p.2 = QVal.undef) →
        prepareQuery (some es) = some "") := by
  refine ⟨prepareQueryParams_filter_undef, rfl, ?_⟩
  intro es h
  have h1 : es.filter (fun p => !p.2.isUndef) = [] := by
    refine List.filter_eq_nil_iff.mpr ?_
    intro p hp
    simp [h p hp, QVal.isUndef]
  have h2 := prepareQueryParams_filter_undef es
  rw [h1] at h2
  simp [prepareQuery, h2, prepareQueryParams, searchParamsToString, joinSep]

theorem C6_undefined_skipped_witness :
    prepareQuery (some [("after", QVal.undef)]) = some "" :=
  C6_undefined_skipped.2.2 [("after", QVal.undef)] (by simp)

lemma sandboxTruthy_if (sb : Option Bool) :
    (if sandboxTruthy sb then sandboxAPIURL else apiURL)
      = (if sb = some true then sandboxAPIURL else apiURL) := by
  cases sb with
  | none => simp [sandboxTruthy]
  | some b => cases b <;> simp [sandboxTruthy]

/-- C7: the dispatched URL is the sandbox base host exactly when the client's
sandbox flag is a present `true` (the production base host when the flag is
unset or `false`), concatenated with the request path and the serialized
query string; when the query object is absent nothing is appended. -/
theorem C7_url_selection {β : Type} (stringify : β → String) (c : Client)
    (p : FetchProps β) (r : Request) (h : buildRequest stringify c p = some r) :
    ∃ qs : String,
      prepareQuery p.query = some qs ∧
      (p.query = none → qs = "") ∧
      r.url = (if c.sandbox = some true then sandboxAPIURL else apiURL) ++ p.path ++ qs := by
  unfold buildRequest at h
  cases hq : p.query with
  | none =>
      simp only [hq, Option.map_some', Option.some.injEq] at h
      refine ⟨"", rfl, fun _ => rfl, ?_⟩
      rw [← h]; simp [sandboxTruthy_if]
  | some q =>
      simp only [hq] at h
      cases hpq : prepareQuery (some q) with
      | none => simp [hpq] at h
      | some qs =>
          simp only [hpq, Option.map_some', Option.some.injEq] at h
          refine ⟨qs, rfl, fun hn => Option.noConfusion hn, ?_⟩
          rw [← h]; simp [sandboxTruthy_if]

theorem C7_url_selection_witness :
    ∃ qs : String,
      prepareQuery (none : Option (List (String × QVal))) = some qs ∧
      ((none : Option (List (String × QVal))) = none → qs = "") ∧
      sandboxAPIURL ++ "products" ++ "" =
        (if (some true : Option Bool) = some true then sandboxAPIURL else apiURL)
          ++ "products" ++ qs :=
  C7_url_selection (fun _ : Unit => "") ⟨"k", some true⟩
    ⟨Method.GET, "products", none, none⟩
    ⟨sandboxAPIURL ++ "products" ++ "", Method.GET, [("Authorization", "Bearer " ++ "k")], none⟩
    (by decide)

/-- C8: every dispatched request carries an `Authorization: Bearer <key>`
header; when a body is present the request body is exactly the JSON encoding
of the body object and a `Content-Type: application/json` header is present;
when no body is present the request body is `null` and no `Content-Type`
header is present. -/
theorem C8_headers_and_body {β : Type} (stringify : β → String) (c : Client)
    (p : FetchProps β) (r : Request) (h : buildRequest stringify c p = some r) :
    ("Authorization", "Bearer " ++ c.key) ∈ r.headers ∧
    (∀ b, p.body = some b →
        r.body = some (stringify b) ∧
        ("Content-Type", "application/json") ∈ r.headers) ∧
    (p.body = none →
        r.body = none ∧ ∀ v, ("Content-Type", v) ∉ r.headers) := by
  unfold buildRequest at h
  obtain ⟨qs, hqs, hr⟩ := Option.map_eq_some'.mp h
  subst hr
  refine ⟨?_, ?_, ?_⟩
  · simp
  · intro b hb
    simp [hb]
  · intro hb
    simp [hb]

theorem C8_headers_and_body_witness :
    ("Authorization", "Bearer " ++ "k") ∈
      ([("Authorization", "Bearer " ++ "k")] ++ [("Content-Type", "application/json")]) ∧
    (∀ b : Nat, (some 5 : Option Nat) = some b →
        (some (toString 5) : Option String) = some (toString b) ∧
        ("Content-Type", "application/json") ∈
          ([("Authorization", "Bearer " ++ "k")] ++ [("Content-Type", "application/json")])) ∧
    ((some 5 : Option Nat) = none →
        (some (toString 5) : Option String) = none ∧
        ∀ v, ("Content-Type", v) ∉
          ([("Authorization", "Bearer " ++ "k")] ++ [("Content-Type", "application/json")])) :=
  C8_headers_and_body (fun n : Nat => toString n) ⟨"k", none⟩
    ⟨Method.POST, "products", none, some 5⟩
    ⟨apiURL ++ "products" ++ "", Method.POST,
      [("Authorization", "Bearer " ++ "k")] ++ [("Content-Type", "application/json")],
      some (toString 5)⟩
    (by decide)

/-- C9: the dispatcher returns the parse of the response body unmodified and
independently of the HTTP status code (an API error payload on a non-2xx
response is an ordinary successful result), and a failure arises only from a
transport rejection, which is propagated untranslated. -/
theorem C9_status_independent {β J : Type} (stringify : β → String)
    (parseJson : String → Except String J) (c : Client) (p : FetchProps β)
    (req : Request) (h : buildRequest stringify c p = some req)
    (s1 s2 : Nat) (b : String) :
    paddleFetch stringify (fun _ => .ok ⟨s1, b⟩) parseJson c p =
      paddleFetch stringify (fun _ => .ok ⟨s2, b⟩) parseJson c p ∧
    paddleFetch stringify (fun _ => .ok ⟨s1, b⟩) parseJson c p = some (parseJson b) ∧
    (∀ e : String,
      paddleFetch stringify (fun _ => .error e) parseJson c p = some (.error e)) := by
  unfold paddleFetch
  rw [h]
  exact ⟨rfl, rfl, fun e => rfl⟩

theorem C9_status_independent_witness :
    paddleFetch (fun _ : Unit => "") (fun _ => Except.ok ⟨404, "{}"⟩)
      (fun s => (Except.ok s : Except String String)) ⟨"k", none⟩
      ⟨Method.GET, "products", none, none⟩ = some (Except.ok "{}") :=
  (C9_status_independent (fun _ : Unit => "") (fun s => (Except.ok s : Except String String))
    ⟨"k", none⟩ ⟨Method.GET, "products", none, none⟩
    ⟨apiURL ++ "products" ++ "", Method.GET, [("Authorization", "Bearer " ++ "k")], none⟩
    (by decide) 404 200 "{}").2.1

lemma entryParams_isSome_of_domain (k : String) (v : QVal)
    (h : inDocumentedDomain k v = true) : (entryParams k v).isSome := by
  cases v with
  | undef => simp [inDocumentedDomain] at h
  | null => simp [inDocumentedDomain] at h
  | str s =>
      simp only [entryParams]
      rcases hm : opMatch s with _ | ⟨op, val⟩
      · simp [hm]
      · simp only [hm]
        split <;> simp
  | num n => simp [entryParams, jsToString]
  | bool b => simp [entryParams, jsToString]
  | arr xs => simp [entryParams]
  | obj fs =>
      have hk : k = "include" := by simpa [inDocumentedDomain] using h
      simp [entryParams, hk]

lemma prepareQueryParams_isSome_of_domain (es : List (String × QVal))
    (h : ∀ p ∈ es, inDocumentedDomain p.1 p.2 = true) :
    (prepareQueryParams es).isSome := by
  induction es with
  | nil => simp [prepareQueryParams]
  | cons e rest ih =>
      obtain ⟨k, v⟩ := e
      have h1 := entryParams_isSome_of_domain k v (h (k, v) (by simp))
      have h2 := ih (fun p hp => h p (by simp [hp]))
      obtain ⟨ps, hps⟩ := Option.isSome_iff_exists.mp h1
      obtain ⟨rs, hrs⟩ := Option.isSome_iff_exists.mp h2
      simp [prepareQueryParams, hps, hrs]

/-- C10: on the documented domain of query values (scalars, arrays of defined
scalars, and non-null objects under the reserved key `include`) the
serializer is total — the fallthrough `value.toString()` never faults — while
outside it a `null` value under any key other than `include` reaches the
`value.toString()` call and the error branch is reachable. -/
theorem C10_domain_totality :
    (∀ es : List (String × QVal), (∀ p ∈ es, inDocumentedDomain p.1 p.2 = true) →
        (prepareQueryParams es).isSome ∧ (prepareQuery (some es)).isSome) ∧
    (∀ k : String, k ≠ "include" → entryParams k QVal.null = none) := by
  refine ⟨fun es h => ⟨prepareQueryParams_isSome_of_domain es h, ?_⟩, fun k _ => rfl⟩
  obtain ⟨ps, hps⟩ := Option.isSome_iff_exists.mp (prepareQueryParams_isSome_of_domain es h)
  simp [prepareQuery, hps]

theorem C10_domain_totality_witness :
    ((prepareQueryParams [("status", QVal.arr [QVal.str "active", QVal.str "archived"]),
        ("include", QVal.obj [("prices", QVal.bool true)])]).isSome ∧
      (prepareQuery (some [("status", QVal.arr [QVal.str "active", QVal.str "archived"]),
        ("include", QVal.obj [("prices", QVal.bool true)])])).isSome) ∧
    entryParams "price" QVal.null = none :=
  ⟨C10_domain_totality.1
      [("status", QVal.arr [QVal.str "active", QVal.str "archived"]),
        ("include", QVal.obj [("prices", QVal.bool true)])]
      (by decide),
    C10_domain_totality.2 "price" (by decide)⟩

end PaddleClient
